import Mathlib

/-!
Verification of the playlist-migration core of
`ComputingVictor/Spotify_Playlists_to_Youtube_Music` (src/src/main.py).

The embedding models the `SpotifyToYTMusicMigrator` methods that contain the
migration logic.  The two remote services are modelled by an `Env` of pure
oracle functions (one run of the program observes fixed responses), and the
externally visible calls (track-list fetch, playlist creation, search,
append-items) are recorded in an `Event` trace, in the order the Python code
issues them.  Python exceptions that escape a method are modelled with
`Except`; exceptions the code catches locally are folded into the oracle's
return value (e.g. `create_ytmusic_playlist` catching and returning `None`
becomes an `Option`-valued oracle).
-/

namespace SpotifyMigrator

/-- One artist entry of a Spotify track record: `track['track']['artists'][k]`
has a `'name'` field (main.py line 268). -/
structure Artist where
  name : String
deriving DecidableEq

/-- The underlying Spotify track record `track['track']`: a display name and
an ordered artist list (main.py lines 267-268). -/
structure TrackRecord where
  name : String
  artists : List Artist
deriving DecidableEq

/-- One element of the list returned by `get_playlist_tracks`.  `track` is
`none` when the item's `'track'` entry is `None`/missing/falsy, the case the
loop guard `if not track['track']` skips (main.py line 370). -/
structure TrackEntry where
  track : Option TrackRecord
deriving DecidableEq

/-- One YouTube Music search result; the code reads its `'videoId'` field
(main.py line 276). -/
structure SearchResult where
  videoId : String
deriving DecidableEq

/-- A Spotify playlist as consumed by `migrate_playlist`: `'name'`, `'id'`,
and an optional `'description'` (`none` models a missing key or a falsy
`None`; `some ""` models an empty string, also falsy in Python). -/
structure Playlist where
  name : String
  id : String
  description : Option String
deriving DecidableEq

/-- A Python exception that escapes the migration code: the `IndexError`
from `artists[0]` on an empty artist list (main.py lines 269 and 373), or the
`TypeError` from subscripting a `None` record (line 267). -/
inductive MigError where
  | indexError
  | typeError
deriving DecidableEq

/-- Externally visible calls, recorded in program order. -/
inductive Event where
  | fetchTracks (playlistId : String)
  | create (title description privacy : String)
  | search (query : String)
  | append (playlistId : String) (videoIds : List String)
deriving DecidableEq

/-- The two remote services, as pure oracles for one run.
* `tracks` is the full paginated result of `get_playlist_tracks` (lines 232-252).
* `create` is the net effect of `create_ytmusic_playlist` (lines 282-305):
  exceptions are caught there, so the oracle returns `none` on failure.
* `search` is `ytmusic.search` (line 274); `.error` models a raised exception.
* `append` is the net effect of `ytmusic.add_playlist_items` under the
  `try/except` of `add_tracks_to_playlist` (lines 307-326): `none` on failure. -/
structure Env where
  tracks : String → List TrackEntry
  create : String → String → String → Option String
  search : String → Except String (List SearchResult)
  append : String → List String → Option Bool

/-- `search_on_ytmusic` (main.py lines 254-280).  The record and artist
lookups (lines 267-269) happen before the `try`, so they raise; the search
call itself is inside the `try`, so a raised search error becomes `None`
(`.ok none`).  The second component is the list of search calls issued. -/
def search_on_ytmusic (env : Env) (entry : TrackEntry) :
    Except MigError (Option String) × List Event :=
  match entry.track with
  | none => (.error .typeError, [])
  | some r =>
    match r.artists with
    | [] => (.error .indexError, [])
    | a :: _ =>
      let query := r.name ++ " " ++ a.name
      match env.search query with
      | .error _ => (.ok none, [.search query])
      | .ok [] => (.ok none, [.search query])
      | .ok (res :: _) => (.ok (some res.videoId), [.search query])

/-- `create_ytmusic_playlist` (main.py lines 282-305): fixed
`privacy_status="PRIVATE"`; exceptions caught, `none` on failure. -/
def create_ytmusic_playlist (env : Env) (playlist_name description : String) :
    Option String :=
  env.create playlist_name description "PRIVATE"

/-- `add_tracks_to_playlist` (main.py lines 307-326): one append-items call;
the status only drives a progress print in the caller (lines 386-388). -/
def add_tracks_to_playlist (env : Env) (playlistId : String)
    (videoIds : List String) : Option Bool × List Event :=
  (env.append playlistId videoIds, [.append playlistId videoIds])

/-- The destination description computed at main.py lines 349-351:
`"Migrated from Spotify"`, plus `": " + description` when the `'description'`
key is present and truthy (non-empty). -/
def destDescription (p : Playlist) : String :=
  let base := "Migrated from Spotify"
  match p.description with
  | some d => if d ≠ "" then base ++ (": " ++ d) else base
  | none => base

/-- The per-track loop of `migrate_playlist` (main.py lines 369-392).
`n` is `len(tracks)`, `i` the current index, `batch` the `video_ids`
accumulator, `nf` the `not_found` counter.  A falsy record `continue`s
(skipping the flush check); otherwise the progress print at line 373 indexes
`artists[0]` (raising on an empty list, which `search_on_ytmusic` models at
the same point), then the search result is accumulated and the batch is
flushed when it holds 50 entries or `i == len(tracks) - 1`.  Returns the
event trace of the loop and either the escaping exception or the final
`not_found` count. -/
def processTracks (env : Env) (ytId : String) (n : Nat) :
    Nat → List TrackEntry → List String → Nat →
    List Event × Except MigError Nat
  | _, [], _, nf => ([], .ok nf)
  | i, entry :: rest, batch, nf =>
    match entry.track with
    | none => processTracks env ytId n (i + 1) rest batch nf
    | some _ =>
      match search_on_ytmusic env entry with
      | (.error e, sevs) => (sevs, .error e)
      | (.ok vidOpt, sevs) =>
        let batch2 := match vidOpt with
          | some v => batch ++ [v]
          | none => batch
        let nf2 := match vidOpt with
          | some _ => nf
          | none => nf + 1
        if batch2.length = 50 ∨ i = n - 1 then
          let flushEvs := if batch2 = [] then ([] : List Event)
            else (add_tracks_to_playlist env ytId batch2).2
          let next := processTracks env ytId n (i + 1) rest [] nf2
          (sevs ++ flushEvs ++ next.1, next.2)
        else
          let next := processTracks env ytId n (i + 1) rest batch2 nf2
          (sevs ++ next.1, next.2)

/-- The outcome of `migrate_playlist`, packaging its return value
(`ytId`, main.py line 397, `none` on the early return at line 363) with the
statistics it reports at line 395: `total = len(tracks)` and
`found = len(tracks) - not_found`.  On the early creation-failure return no
statistics are reported; `found` and `total` are 0 there. -/
structure MigResult where
  ytId : Option String
  found : Nat
  total : Nat
deriving DecidableEq

/-- `migrate_playlist` (main.py lines 328-397): compute the description
(lines 349-351), fetch the source track list (line 356), then request
destination playlist creation (line 360); on creation failure return early
(lines 361-363); otherwise run the per-track loop.  Returns the full event
trace and either the escaping exception or the `MigResult`. -/
def migrate_playlist (env : Env) (p : Playlist) :
    List Event × Except MigError MigResult :=
  let description := destDescription p
  let tracks := env.tracks p.id
  match create_ytmusic_playlist env p.name description with
  | none =>
    ([.fetchTracks p.id, .create p.name description "PRIVATE"],
     .ok ⟨none, 0, 0⟩)
  | some ytId =>
    let step := processTracks env ytId tracks.length 0 tracks [] 0
    ([.fetchTracks p.id, .create p.name description "PRIVATE"] ++ step.1,
     match step.2 with
     | .error e => .error e
     | .ok nf => .ok ⟨some ytId, tracks.length - nf, tracks.length⟩)

/-! ### Spec-side derived notions (for stating the claims) -/

/-- Number of entries whose underlying record is present — the spec's notion
of the tracks that should be counted. -/
def presentCount (tracks : List TrackEntry) : Nat :=
  (tracks.filter (fun t => t.track.isSome)).length

/-- Modelled from the spec: `matchTrack`'s result on a search outcome — the
first result's identifier, absent on zero results or a raised call. -/
def specTopMatch (res : Except String (List SearchResult)) : Option String :=
  match res with
  | .error _ => none
  | .ok [] => none
  | .ok (r :: _) => some r.videoId

/-- The search query a track entry gives rise to: `"<title> <first artist>"`,
or `none` when the record is absent or the artist list is empty. -/
def trackQuery (t : TrackEntry) : Option String :=
  match t.track with
  | none => none
  | some r =>
    match r.artists with
    | [] => none
    | a :: _ => some (r.name ++ " " ++ a.name)

/-- The queries the loop should issue, in source order. -/
def expectedQueries (tracks : List TrackEntry) : List String :=
  tracks.filterMap trackQuery

/-- The destination ids matched from a track list, in source order. -/
def matchedIds (env : Env) (tracks : List TrackEntry) : List String :=
  tracks.filterMap (fun t => (trackQuery t).bind (fun q => specTopMatch (env.search q)))

/-- Number of searchable tracks whose search found no match. -/
def unmatchedCount (env : Env) (tracks : List TrackEntry) : Nat :=
  (tracks.filter (fun t =>
    match trackQuery t with
    | some q => (specTopMatch (env.search q)).isNone
    | none => false)).length

/-- The search queries recorded in a trace, in order. -/
def searchQueries (evs : List Event) : List String :=
  evs.filterMap (fun e => match e with | .search q => some q | _ => none)

/-- The batches passed to append-items in a trace, in order. -/
def appendBatches (evs : List Event) : List (List String) :=
  evs.filterMap (fun e => match e with | .append _ ids => some ids | _ => none)

/-! ### Trace helper lemmas -/

theorem searchQueries_nil : searchQueries [] = [] := rfl

theorem searchQueries_append (l1 l2 : List Event) :
    searchQueries (l1 ++ l2) = searchQueries l1 ++ searchQueries l2 :=
  List.filterMap_append l1 l2 _

theorem searchQueries_cons_fetch (pid : String) (l : List Event) :
    searchQueries (.fetchTracks pid :: l) = searchQueries l := rfl

theorem searchQueries_cons_create (t d v : String) (l : List Event) :
    searchQueries (.create t d v :: l) = searchQueries l := rfl

theorem searchQueries_cons_search (q : String) (l : List Event) :
    searchQueries (.search q :: l) = q :: searchQueries l := rfl

theorem searchQueries_cons_append (pid : String) (ids : List String)
    (l : List Event) :
    searchQueries (.append pid ids :: l) = searchQueries l := rfl

theorem appendBatches_nil : appendBatches [] = [] := rfl

theorem appendBatches_append (l1 l2 : List Event) :
    appendBatches (l1 ++ l2) = appendBatches l1 ++ appendBatches l2 :=
  List.filterMap_append l1 l2 _

theorem appendBatches_cons_fetch (pid : String) (l : List Event) :
    appendBatches (.fetchTracks pid :: l) = appendBatches l := rfl

theorem appendBatches_cons_create (t d v : String) (l : List Event) :
    appendBatches (.create t d v :: l) = appendBatches l := rfl

theorem appendBatches_cons_search (q : String) (l : List Event) :
    appendBatches (.search q :: l) = appendBatches l := rfl

theorem appendBatches_cons_append (pid : String) (ids : List String)
    (l : List Event) :
    appendBatches (.append pid ids :: l) = ids :: appendBatches l := rfl

/-- On a present record with a non-empty artist list, `search_on_ytmusic`
issues exactly one search for `"<title> <first artist>"` and returns (without
raising) the top result's id, absent on an empty result or a raised call. -/
theorem search_on_ytmusic_present (env : Env) (entry : TrackEntry)
    (r : TrackRecord) (a : Artist) (as : List Artist)
    (ht : entry.track = some r) (ha : r.artists = a :: as) :
    search_on_ytmusic env entry =
      (.ok (specTopMatch (env.search (r.name ++ " " ++ a.name))),
       [.search (r.name ++ " " ++ a.name)]) := by
  unfold search_on_ytmusic
  rw [ht]
  cases h : env.search (r.name ++ " " ++ a.name) with
  | error e => simp [ha, h, specTopMatch]
  | ok l => cases l <;> simp [ha, h, specTopMatch]

/-- On a present record with an empty artist list, `search_on_ytmusic` raises
the indexing error before issuing any search call. -/
theorem search_on_ytmusic_noArtists (env : Env) (entry : TrackEntry)
    (r : TrackRecord) (ht : entry.track = some r) (ha : r.artists = []) :
    search_on_ytmusic env entry = (.error .indexError, []) := by
  unfold search_on_ytmusic
  rw [ht]
  simp [ha]

/-- If some entry of the remaining list has a present record with an empty
artist list, the loop raises `IndexError` (nothing catches it). -/
theorem processTracks_abort (env : Env) (y : String) (n : Nat) :
    ∀ (rest : List TrackEntry) (i : Nat) (batch : List String) (nf : Nat),
      (∃ t ∈ rest, ∃ r, t.track = some r ∧ r.artists = []) →
      (processTracks env y n i rest batch nf).2 = .error .indexError := by
  intro rest
  induction rest with
  | nil =>
    intro i batch nf h
    simp at h
  | cons entry rest ih =>
    intro i batch nf h
    obtain ⟨t, hmem, r, htr, hart⟩ := h
    cases hE : entry.track with
    | none =>
      have htm : t ∈ rest := by
        rcases List.mem_cons.mp hmem with h1 | h1
        · subst h1; rw [hE] at htr; exact absurd htr (by simp)
        · exact h1
      simp only [processTracks, hE]
      exact ih (i + 1) batch nf ⟨t, htm, r, htr, hart⟩
    | some r0 =>
      cases hA : r0.artists with
      | nil =>
        have hs := search_on_ytmusic_noArtists env entry r0 hE hA
        simp only [processTracks, hE, hs]
      | cons a as =>
        have hs := search_on_ytmusic_present env entry r0 a as hE hA
        have htm : t ∈ rest := by
          rcases List.mem_cons.mp hmem with h1 | h1
          · subst h1
            rw [hE] at htr
            injection htr with h2
            subst h2
            rw [hA] at hart
            exact absurd hart (by simp)
          · exact h1
        simp only [processTracks, hE, hs]
        split
        · exact ih (i + 1) [] _ ⟨t, htm, r, htr, hart⟩
        · exact ih (i + 1) _ _ ⟨t, htm, r, htr, hart⟩

/-- Auxiliary step for the batch-size invariant: prepending a batch that is
bounded, non-empty, and exactly 50 whenever more batches follow. -/
theorem sizes_cons_aux (x : List String) (bs : List (List String))
    (hx : x.length ≤ 50 ∧ x ≠ [])
    (hx50 : bs ≠ [] → x.length = 50)
    (h1 : ∀ b ∈ bs, b.length ≤ 50 ∧ b ≠ [])
    (h2 : ∀ j, j + 1 < bs.length → (bs.getD j []).length = 50) :
    (∀ b ∈ x :: bs, b.length ≤ 50 ∧ b ≠ []) ∧
    (∀ j, j + 1 < (x :: bs).length → ((x :: bs).getD j []).length = 50) := by
  constructor
  · intro b hb
    rcases List.mem_cons.mp hb with h | h
    · subst h; exact hx
    · exact h1 b h
  · intro j hj
    cases j with
    | zero =>
      have hbs : bs ≠ [] := by
        intro hc
        subst hc
        simp at hj
      simpa using hx50 hbs
    | succ k =>
      have hk : k + 1 < bs.length := by simpa using hj
      simpa using h2 k hk

/-- Batch-size invariant of the per-track loop: every batch passed to the
append-items call is non-empty and holds at most 50 ids, and every batch
other than the last one holds exactly 50. -/
theorem processTracks_sizes (env : Env) (y : String) (n : Nat) :
    ∀ (rest : List TrackEntry) (i : Nat) (batch : List String) (nf : Nat),
      i + rest.length = n → batch.length < 50 →
      (∀ b ∈ appendBatches (processTracks env y n i rest batch nf).1,
          b.length ≤ 50 ∧ b ≠ []) ∧
      (∀ j, j + 1 < (appendBatches (processTracks env y n i rest batch nf).1).length →
          ((appendBatches (processTracks env y n i rest batch nf).1).getD j []).length = 50) := by
  intro rest
  induction rest with
  | nil =>
    intro i batch nf _ _
    simp [processTracks, appendBatches]
  | cons entry rest ih =>
    intro i batch nf hn hb
    have hn' : i + 1 + rest.length = n := by
      simp only [List.length_cons] at hn
      omega
    cases hE : entry.track with
    | none =>
      simp only [processTracks, hE]
      exact ih (i + 1) batch nf hn' hb
    | some r0 =>
      cases hA : r0.artists with
      | nil =>
        have hs := search_on_ytmusic_noArtists env entry r0 hE hA
        simp only [processTracks, hE, hs]
        simp [appendBatches]
      | cons a as =>
        have hs := search_on_ytmusic_present env entry r0 a as hE hA
        have hempty : ∀ m : Nat, rest = [] →
            appendBatches (processTracks env y n (i + 1) rest [] m).1 = [] := by
          intro m hc
          subst hc
          simp [processTracks, appendBatches]
        simp only [processTracks, hE, hs]
        cases hv : specTopMatch (env.search (r0.name ++ " " ++ a.name)) with
        | some v =>
          by_cases hc : (batch ++ [v]).length = 50 ∨ i = n - 1
          · rw [if_pos hc]
            have hne : batch ++ [v] ≠ [] := by simp
            rw [if_neg hne]
            have ihx := ih (i + 1) [] nf hn' (by simp)
            simp only [add_tracks_to_playlist, appendBatches_append,
              appendBatches_cons_search, appendBatches_cons_append,
              appendBatches_nil, List.nil_append]
            refine sizes_cons_aux _ _ ⟨by simp; omega, hne⟩ ?_ ihx.1 ihx.2
            intro hbs
            have hrest : rest ≠ [] := by
              intro hcontra
              exact hbs (hempty _ hcontra)
            have hlen : 1 ≤ rest.length := List.length_pos.mpr hrest
            rcases hc with h50 | hlast
            · exact h50
            · omega
          · rw [if_neg hc]
            have hlt : (batch ++ [v]).length < 50 := by
              rcases not_or.mp hc with ⟨h50, _⟩
              simp at h50 ⊢
              omega
            exact ih (i + 1) (batch ++ [v]) nf hn' hlt
        | none =>
          by_cases hc : batch.length = 50 ∨ i = n - 1
          · rw [if_pos hc]
            by_cases hne : batch = []
            · rw [if_pos hne]
              subst hne
              have ihx := ih (i + 1) [] (nf + 1) hn' (by simp)
              simpa [appendBatches_append, appendBatches_cons_search,
                appendBatches_nil] using ihx
            · rw [if_neg hne]
              have ihx := ih (i + 1) [] (nf + 1) hn' (by simp)
              simp only [add_tracks_to_playlist, appendBatches_append,
                appendBatches_cons_search, appendBatches_cons_append,
                appendBatches_nil, List.nil_append]
              refine sizes_cons_aux _ _ ⟨le_of_lt hb, hne⟩ ?_ ihx.1 ihx.2
              intro hbs
              have hrest : rest ≠ [] := by
                intro hcontra
                exact hbs (hempty _ hcontra)
              have hlen : 1 ≤ rest.length := List.length_pos.mpr hrest
              rcases hc with h50 | hlast
              · exact h50
              · omega
          · rw [if_neg hc]
            exact ih (i + 1) batch (nf + 1) hn' hb

/-- The source track list ends in an entry whose record is present. -/
def lastPresent (tracks : List TrackEntry) : Prop :=
  ∃ t, tracks.getLast? = some t ∧ t.track.isSome = true

theorem not_lastPresent_nil : ¬ lastPresent [] := by
  simp [lastPresent]

theorem lastPresent_singleton (t : TrackEntry) :
    lastPresent [t] ↔ t.track.isSome = true := by
  simp [lastPresent]

theorem lastPresent_cons (t : TrackEntry) (rest : List TrackEntry)
    (h : rest ≠ []) : lastPresent (t :: rest) ↔ lastPresent rest := by
  obtain ⟨x, xs, rfl⟩ := List.exists_cons_of_ne_nil h
  simp [lastPresent, List.getLast?_cons_cons]

theorem trackQuery_of_none (t : TrackEntry) (h : t.track = none) :
    trackQuery t = none := by
  unfold trackQuery
  rw [h]

theorem trackQuery_of_present (t : TrackEntry) (r : TrackRecord)
    (a : Artist) (as : List Artist)
    (ht : t.track = some r) (ha : r.artists = a :: as) :
    trackQuery t = some (r.name ++ " " ++ a.name) := by
  unfold trackQuery
  rw [ht]
  simp [ha]

theorem expectedQueries_cons_none (t : TrackEntry) (rest : List TrackEntry)
    (h : trackQuery t = none) :
    expectedQueries (t :: rest) = expectedQueries rest := by
  simp [expectedQueries, List.filterMap_cons, h]

theorem expectedQueries_cons_some (t : TrackEntry) (rest : List TrackEntry)
    (q : String) (h : trackQuery t = some q) :
    expectedQueries (t :: rest) = q :: expectedQueries rest := by
  simp [expectedQueries, List.filterMap_cons, h]

theorem matchedIds_cons_none (env : Env) (t : TrackEntry)
    (rest : List TrackEntry) (h : trackQuery t = none) :
    matchedIds env (t :: rest) = matchedIds env rest := by
  simp [matchedIds, List.filterMap_cons, h]

theorem matchedIds_cons_found (env : Env) (t : TrackEntry)
    (rest : List TrackEntry) (q v : String) (h : trackQuery t = some q)
    (hv : specTopMatch (env.search q) = some v) :
    matchedIds env (t :: rest) = v :: matchedIds env rest := by
  simp [matchedIds, List.filterMap_cons, h, hv]

theorem matchedIds_cons_unfound (env : Env) (t : TrackEntry)
    (rest : List TrackEntry) (q : String) (h : trackQuery t = some q)
    (hv : specTopMatch (env.search q) = none) :
    matchedIds env (t :: rest) = matchedIds env rest := by
  simp [matchedIds, List.filterMap_cons, h, hv]

theorem unmatchedCount_cons_none (env : Env) (t : TrackEntry)
    (rest : List TrackEntry) (h : trackQuery t = none) :
    unmatchedCount env (t :: rest) = unmatchedCount env rest := by
  simp [unmatchedCount, List.filter_cons, h]

theorem unmatchedCount_cons_found (env : Env) (t : TrackEntry)
    (rest : List TrackEntry) (q v : String) (h : trackQuery t = some q)
    (hv : specTopMatch (env.search q) = some v) :
    unmatchedCount env (t :: rest) = unmatchedCount env rest := by
  simp [unmatchedCount, List.filter_cons, h, hv]

theorem unmatchedCount_cons_unfound (env : Env) (t : TrackEntry)
    (rest : List TrackEntry) (q : String) (h : trackQuery t = some q)
    (hv : specTopMatch (env.search q) = none) :
    unmatchedCount env (t :: rest) = unmatchedCount env rest + 1 := by
  simp [unmatchedCount, List.filter_cons, h, hv]

/-- Full characterization of the per-track loop when no entry aborts it:
the final `not_found` counter, the search queries issued (source order), and
the ids appended (a prefix of the matched ids in source order, complete when
the source list ends in a present-record entry; the `leftover` is the batch
content the loop drops if the final flush never fires). -/
theorem processTracks_spec (env : Env) (y : String) (n : Nat) :
    ∀ (rest : List TrackEntry) (i : Nat) (batch : List String) (nf : Nat),
      (∀ t ∈ rest, ∀ r, t.track = some r → r.artists ≠ []) →
      i + rest.length = n →
      batch.length < 50 →
      (processTracks env y n i rest batch nf).2 =
          .ok (nf + unmatchedCount env rest) ∧
      searchQueries (processTracks env y n i rest batch nf).1 =
          expectedQueries rest ∧
      ∃ leftover : List String,
        (appendBatches (processTracks env y n i rest batch nf).1).flatten ++ leftover
            = batch ++ matchedIds env rest ∧
        leftover.length < 50 ∧
        (lastPresent rest → leftover = []) := by
  intro rest
  induction rest with
  | nil =>
    intro i batch nf _ _ hb
    refine ⟨?_, ?_, batch, ?_, hb, ?_⟩
    · simp [processTracks, unmatchedCount]
    · simp [processTracks, searchQueries, expectedQueries]
    · simp [processTracks, appendBatches, matchedIds]
    · intro h
      exact absurd h not_lastPresent_nil
  | cons entry rest ih =>
    intro i batch nf hno hn hb
    have hno' : ∀ t ∈ rest, ∀ r, t.track = some r → r.artists ≠ [] :=
      fun t ht r hr => hno t (List.mem_cons_of_mem _ ht) r hr
    have hn' : i + 1 + rest.length = n := by
      simp only [List.length_cons] at hn
      omega
    cases hE : entry.track with
    | none =>
      have hq := trackQuery_of_none entry hE
      obtain ⟨h1, h2, lo, h3, h4, h5⟩ := ih (i + 1) batch nf hno' hn' hb
      simp only [processTracks, hE]
      refine ⟨?_, ?_, lo, ?_, h4, ?_⟩
      · rw [unmatchedCount_cons_none env entry rest hq]
        exact h1
      · rw [expectedQueries_cons_none entry rest hq]
        exact h2
      · rw [matchedIds_cons_none env entry rest hq]
        exact h3
      · intro hl
        cases hrest : rest with
        | nil =>
          subst hrest
          rw [lastPresent_singleton] at hl
          rw [hE] at hl
          simp at hl
        | cons x xs =>
          apply h5
          rw [← lastPresent_cons entry rest (by rw [hrest]; simp)]
          exact hl
    | some r0 =>
      cases hA : r0.artists with
      | nil =>
        exact absurd hA (hno entry (List.mem_cons_self _ _) r0 hE)
      | cons a as =>
        have hs := search_on_ytmusic_present env entry r0 a as hE hA
        have hq := trackQuery_of_present entry r0 a as hE hA
        simp only [processTracks, hE, hs]
        cases hv : specTopMatch (env.search (r0.name ++ " " ++ a.name)) with
        | some v =>
          by_cases hc : (batch ++ [v]).length = 50 ∨ i = n - 1
          · rw [if_pos hc]
            have hne : batch ++ [v] ≠ [] := by simp
            rw [if_neg hne]
            obtain ⟨h1, h2, lo, h3, h4, h5⟩ := ih (i + 1) [] nf hno' hn' (by simp)
            refine ⟨?_, ?_, lo, ?_, h4, ?_⟩
            · rw [unmatchedCount_cons_found env entry rest _ v hq hv]
              simpa using h1
            · rw [expectedQueries_cons_some entry rest _ hq]
              simpa [add_tracks_to_playlist, searchQueries_append,
                searchQueries_cons_search, searchQueries_cons_append,
                searchQueries_nil] using h2
            · rw [matchedIds_cons_found env entry rest _ v hq hv]
              simp only [add_tracks_to_playlist, appendBatches_append,
                appendBatches_cons_search, appendBatches_cons_append,
                appendBatches_nil, List.nil_append, List.cons_append,
                List.flatten_cons, List.append_assoc]
              simp only [List.nil_append] at h3
              rw [h3]
            · intro hl
              cases hrest : rest with
              | nil =>
                subst hrest
                simp [processTracks, appendBatches, matchedIds] at h3
                exact h3
              | cons x xs =>
                apply h5
                rw [← lastPresent_cons entry rest (by rw [hrest]; simp)]
                exact hl
          · rw [if_neg hc]
            have hlt : (batch ++ [v]).length < 50 := by
              rcases not_or.mp hc with ⟨h50, _⟩
              simp at h50 ⊢
              omega
            have hrest : rest ≠ [] := by
              intro hcontra
              rcases not_or.mp hc with ⟨_, hlast⟩
              subst hcontra
              simp at hn'
              omega
            obtain ⟨h1, h2, lo, h3, h4, h5⟩ := ih (i + 1) (batch ++ [v]) nf hno' hn' hlt
            refine ⟨?_, ?_, lo, ?_, h4, ?_⟩
            · rw [unmatchedCount_cons_found env entry rest _ v hq hv]
              simpa using h1
            · rw [expectedQueries_cons_some entry rest _ hq]
              simpa [searchQueries_append, searchQueries_cons_search,
                searchQueries_nil] using h2
            · rw [matchedIds_cons_found env entry rest _ v hq hv]
              simp only [appendBatches_append, appendBatches_cons_search,
                appendBatches_nil, List.nil_append]
              rw [h3]
              simp
            · intro hl
              apply h5
              rw [← lastPresent_cons entry rest hrest]
              exact hl
        | none =>
          by_cases hc : batch.length = 50 ∨ i = n - 1
          · rw [if_pos hc]
            obtain ⟨h1, h2, lo, h3, h4, h5⟩ := ih (i + 1) [] (nf + 1) hno' hn' (by simp)
            have hres : nf + 1 + unmatchedCount env rest
                = nf + unmatchedCount env (entry :: rest) := by
              rw [unmatchedCount_cons_unfound env entry rest _ hq hv]
              omega
            by_cases hne : batch = []
            · rw [if_pos hne]
              subst hne
              refine ⟨?_, ?_, lo, ?_, h4, ?_⟩
              · rw [← hres]
                simpa using h1
              · rw [expectedQueries_cons_some entry rest _ hq]
                simpa [searchQueries_append, searchQueries_cons_search,
                  searchQueries_nil] using h2
              · rw [matchedIds_cons_unfound env entry rest _ hq hv]
                simp only [appendBatches_append, appendBatches_cons_search,
                  appendBatches_nil, List.nil_append]
                simp only [List.nil_append] at h3
                rw [h3]
              · intro hl
                cases hrest : rest with
                | nil =>
                  subst hrest
                  simp [processTracks, appendBatches, matchedIds] at h3
                  exact h3
                | cons x xs =>
                  apply h5
                  rw [← lastPresent_cons entry rest (by rw [hrest]; simp)]
                  exact hl
            · rw [if_neg hne]
              refine ⟨?_, ?_, lo, ?_, h4, ?_⟩
              · rw [← hres]
                simpa using h1
              · rw [expectedQueries_cons_some entry rest _ hq]
                simpa [add_tracks_to_playlist, searchQueries_append,
                  searchQueries_cons_search, searchQueries_cons_append,
                  searchQueries_nil] using h2
              · rw [matchedIds_cons_unfound env entry rest _ hq hv]
                simp only [add_tracks_to_playlist, appendBatches_append,
                  appendBatches_cons_search, appendBatches_cons_append,
                  appendBatches_nil, List.nil_append, List.cons_append,
                  List.flatten_cons, List.append_assoc]
                simp only [List.nil_append] at h3
                rw [h3]
              · intro hl
                cases hrest : rest with
                | nil =>
                  subst hrest
                  simp [processTracks, appendBatches, matchedIds] at h3
                  exact h3
                | cons x xs =>
                  apply h5
                  rw [← lastPresent_cons entry rest (by rw [hrest]; simp)]
                  exact hl
          · rw [if_neg hc]
            have hrest : rest ≠ [] := by
              intro hcontra
              rcases not_or.mp hc with ⟨_, hlast⟩
              subst hcontra
              simp at hn'
              omega
            obtain ⟨h1, h2, lo, h3, h4, h5⟩ := ih (i + 1) batch (nf + 1) hno' hn' hb
            have hres : nf + 1 + unmatchedCount env rest
                = nf + unmatchedCount env (entry :: rest) := by
              rw [unmatchedCount_cons_unfound env entry rest _ hq hv]
              omega
            refine ⟨?_, ?_, lo, ?_, h4, ?_⟩
            · rw [← hres]
              simpa using h1
            · rw [expectedQueries_cons_some entry rest _ hq]
              simpa [searchQueries_append, searchQueries_cons_search,
                searchQueries_nil] using h2
            · rw [matchedIds_cons_unfound env entry rest _ hq hv]
              simp only [appendBatches_append, appendBatches_cons_search,
                appendBatches_nil, List.nil_append]
              rw [h3]
            · intro hl
              apply h5
              rw [← lastPresent_cons entry rest hrest]
              exact hl

/-- Unfolding of `migrate_playlist` when playlist creation fails. -/
theorem migrate_playlist_eq_none (env : Env) (p : Playlist)
    (hc : env.create p.name (destDescription p) "PRIVATE" = none) :
    migrate_playlist env p =
      ([.fetchTracks p.id, .create p.name (destDescription p) "PRIVATE"],
       .ok ⟨none, 0, 0⟩) := by
  simp [migrate_playlist, create_ytmusic_playlist, hc]

/-- Unfolding of `migrate_playlist` when playlist creation succeeds. -/
theorem migrate_playlist_eq_some (env : Env) (p : Playlist) (y : String)
    (hc : env.create p.name (destDescription p) "PRIVATE" = some y) :
    migrate_playlist env p =
      (.fetchTracks p.id :: .create p.name (destDescription p) "PRIVATE" ::
        (processTracks env y (env.tracks p.id).length 0 (env.tracks p.id) [] 0).1,
       match (processTracks env y (env.tracks p.id).length 0 (env.tracks p.id) [] 0).2 with
       | .error e => .error e
       | .ok nf =>
         .ok ⟨some y, (env.tracks p.id).length - nf, (env.tracks p.id).length⟩) := by
  simp [migrate_playlist, create_ytmusic_playlist, hc]

/-- A loop that finished normally encountered no present record with an
empty artist list. -/
theorem noAbort_of_ok (env : Env) (y : String) (n : Nat)
    (tracks : List TrackEntry) (i : Nat) (batch : List String) (nf0 nf : Nat)
    (h : (processTracks env y n i tracks batch nf0).2 = .ok nf) :
    ∀ t ∈ tracks, ∀ r0, t.track = some r0 → r0.artists ≠ [] := by
  intro t ht r0 htr hart
  have habort := processTracks_abort env y n tracks i batch nf0 ⟨t, ht, r0, htr, hart⟩
  rw [h] at habort
  exact absurd habort (by simp)

/-- Inversion: a normally returned `MigResult` comes either from the
creation-failure early return or from a completed loop. -/
theorem migrate_playlist_ok_inv (env : Env) (p : Playlist) (r : MigResult)
    (h : (migrate_playlist env p).2 = .ok r) :
    (r = ⟨none, 0, 0⟩ ∧ env.create p.name (destDescription p) "PRIVATE" = none) ∨
    (∃ y nf, env.create p.name (destDescription p) "PRIVATE" = some y ∧
      (processTracks env y (env.tracks p.id).length 0 (env.tracks p.id) [] 0).2
        = .ok nf ∧
      r = ⟨some y, (env.tracks p.id).length - nf, (env.tracks p.id).length⟩) := by
  cases hc : env.create p.name (destDescription p) "PRIVATE" with
  | none =>
    rw [migrate_playlist_eq_none env p hc] at h
    replace h : Except.ok (⟨none, 0, 0⟩ : MigResult) = .ok r := h
    exact Or.inl ⟨(Except.ok.inj h).symm, rfl⟩
  | some y =>
    rw [migrate_playlist_eq_some env p y hc] at h
    cases hstep : (processTracks env y (env.tracks p.id).length 0
        (env.tracks p.id) [] 0).2 with
    | error e =>
      rw [hstep] at h
      simp at h
    | ok nf =>
      rw [hstep] at h
      replace h : Except.ok (⟨some y, (env.tracks p.id).length - nf,
        (env.tracks p.id).length⟩ : MigResult) = .ok r := h
      exact Or.inr ⟨y, nf, rfl, hstep, (Except.ok.inj h).symm⟩

/-! ### Concrete environments for counterexamples and witnesses -/

/-- A playlist whose single track entry has a `None` record. -/
def pC1 : Playlist := ⟨"Lost", "sp1", none⟩

def envC1 : Env where
  tracks := fun _ => [⟨none⟩]
  create := fun _ _ _ => some "yt1"
  search := fun _ => .ok []
  append := fun _ _ => some true

/-- A playlist whose last track entry has a `None` record, after a track
that matches. -/
def pC2 : Playlist := ⟨"Mix", "sp2", none⟩

def envC2 : Env where
  tracks := fun _ => [⟨some ⟨"A", [⟨"X"⟩]⟩⟩, ⟨none⟩]
  create := fun _ _ _ => some "yt2"
  search := fun _ => .ok [⟨"v1"⟩]
  append := fun _ _ => some true

/-- A playlist with one searchable track, facing failing playlist creation. -/
def pC3 : Playlist := ⟨"Road Trip", "sp3", none⟩

def envC3 : Env where
  tracks := fun _ => [⟨some ⟨"B", [⟨"Y"⟩]⟩⟩]
  create := fun _ _ _ => none
  search := fun _ => .ok [⟨"v2"⟩]
  append := fun _ _ => some true

/-! ### Claims -/

/-- C1 counterexample: with a single entry whose underlying record is null,
the reported summary is `total = 1` (and `found = 1`), whereas the number of
entries with a present record is 0 — null entries are skipped for searching
but still counted in the reported total. -/
theorem C1_counterexample :
    (migrate_playlist envC1 pC1).2 = .ok ⟨some "yt1", 1, 1⟩ ∧
    presentCount (envC1.tracks pC1.id) = 0 := by
  constructor
  · rfl
  · rfl

/-- C1 amended: for a migration that returns a result with a present
destination id, `total` is the number of ALL fetched track entries (null
records included), and `found` is that number minus the count of
present-record tracks whose search yielded no match — so null entries count
toward both `total` and `found`. -/
theorem C1_amended (env : Env) (p : Playlist) (r : MigResult)
    (h : (migrate_playlist env p).2 = .ok r) (hy : r.ytId.isSome = true) :
    r.total = (env.tracks p.id).length ∧
    r.found = (env.tracks p.id).length - unmatchedCount env (env.tracks p.id) := by
  rcases migrate_playlist_ok_inv env p r h with ⟨hr, _⟩ | ⟨y, nf, hc, hstep, hr⟩
  · subst hr
    simp at hy
  · subst hr
    refine ⟨rfl, ?_⟩
    have hno := noAbort_of_ok env y (env.tracks p.id).length (env.tracks p.id)
      0 [] 0 nf hstep
    have hspec := processTracks_spec env y (env.tracks p.id).length
      (env.tracks p.id) 0 [] 0 hno (by simp) (by simp)
    rw [hstep] at hspec
    have h1 := hspec.1
    simp only [Except.ok.injEq] at h1
    simp only [h1, Nat.zero_add]

/-- C2 (code bug): the playlist's only searchable track matches id `v1`
(so the batch is non-empty when the source list is exhausted), yet the trace
contains no append-items call at all — the `continue` taken for the final
null-record entry skips the end-of-list flush, and the matched id is
silently dropped. -/
theorem C2_no_final_flush :
    matchedIds envC2 (envC2.tracks pC2.id) = ["v1"] ∧
    searchQueries (migrate_playlist envC2 pC2).1 = ["A X"] ∧
    appendBatches (migrate_playlist envC2 pC2).1 = [] ∧
    (migrate_playlist envC2 pC2).2 = .ok ⟨some "yt2", 2, 2⟩ := by
  refine ⟨rfl, rfl, rfl, rfl⟩

/-- C3 counterexample: playlist creation fails, yet the recorded trace shows
the source track list being fetched FIRST and creation requested second —
the code does not request creation before the fetch, and a failed creation
does not prevent the (already completed) track-list fetch. -/
theorem C3_counterexample :
    (migrate_playlist envC3 pC3).1 =
      [.fetchTracks "sp3",
       .create "Road Trip" "Migrated from Spotify" "PRIVATE"] ∧
    envC3.create "Road Trip" "Migrated from Spotify" "PRIVATE" = none ∧
    envC3.tracks "sp3" ≠ [] := by
  refine ⟨rfl, rfl, by decide⟩

/-- C3 amended: for every playlist migration, the source track list is
fetched BEFORE destination playlist creation is requested (the trace always
begins with the fetch followed by the creation request); if creation fails,
the migration aborts after that fetch with no search calls and no
append-items calls, returning an absent destination id and zero counts. -/
theorem C3_amended (env : Env) (p : Playlist) :
    (∃ rest, (migrate_playlist env p).1 =
      .fetchTracks p.id :: .create p.name (destDescription p) "PRIVATE" :: rest) ∧
    (env.create p.name (destDescription p) "PRIVATE" = none →
      (migrate_playlist env p).1 =
        [.fetchTracks p.id, .create p.name (destDescription p) "PRIVATE"] ∧
      searchQueries (migrate_playlist env p).1 = [] ∧
      appendBatches (migrate_playlist env p).1 = [] ∧
      (migrate_playlist env p).2 = .ok ⟨none, 0, 0⟩) := by
  cases hc : env.create p.name (destDescription p) "PRIVATE" with
  | none =>
    rw [migrate_playlist_eq_none env p hc]
    exact ⟨⟨[], rfl⟩, fun _ => ⟨rfl, rfl, rfl, rfl⟩⟩
  | some y =>
    rw [migrate_playlist_eq_some env p y hc]
    exact ⟨⟨_, rfl⟩, fun hcontra => absurd hcontra (by simp)⟩

/-- C4: when playlist creation returns absent, no search call and no
append-items call is made for that playlist, and the result carries an
absent destination id with `found = 0` and `total = 0`. -/
theorem C4_create_failure (env : Env) (p : Playlist)
    (h : env.create p.name (destDescription p) "PRIVATE" = none) :
    searchQueries (migrate_playlist env p).1 = [] ∧
    appendBatches (migrate_playlist env p).1 = [] ∧
    (migrate_playlist env p).2 = .ok ⟨none, 0, 0⟩ := by
  rw [migrate_playlist_eq_none env p h]
  exact ⟨rfl, rfl, rfl⟩

/-- C5: every batch passed to the append-items call holds at most 50 ids
(and is non-empty), and every batch other than the last one of the playlist
holds exactly 50 — only the final batch may be smaller. -/
theorem C5_batch_sizes (env : Env) (p : Playlist) :
    (∀ b ∈ appendBatches (migrate_playlist env p).1, b.length ≤ 50 ∧ b ≠ []) ∧
    (∀ j, j + 1 < (appendBatches (migrate_playlist env p).1).length →
      ((appendBatches (migrate_playlist env p).1).getD j []).length = 50) := by
  cases hc : env.create p.name (destDescription p) "PRIVATE" with
  | none =>
    rw [migrate_playlist_eq_none env p hc]
    constructor
    · intro b hb
      exact absurd hb (by simp [appendBatches])
    · intro j hj
      exact absurd hj (by simp [appendBatches])
  | some y =>
    rw [migrate_playlist_eq_some env p y hc]
    have hsz := processTracks_sizes env y (env.tracks p.id).length
      (env.tracks p.id) 0 [] 0 (by simp) (by simp)
    simpa [appendBatches_cons_fetch, appendBatches_cons_create] using hsz

/-- C6: a normally reported migration result never has `found` exceeding
`total`. -/
theorem C6_found_le_total (env : Env) (p : Playlist) (r : MigResult)
    (h : (migrate_playlist env p).2 = .ok r) : r.found ≤ r.total := by
  rcases migrate_playlist_ok_inv env p r h with ⟨hr, _⟩ | ⟨y, nf, _, _, hr⟩
  · subst hr
    exact Nat.le_refl 0
  · subst hr
    exact Nat.sub_le _ _

/-- C7: on a track with a present record, the search query is the track
title followed by a space and the FIRST listed artist's name only, exactly
one search call is issued, and the returned value is (without raising) the
top result's identifier — absent when the search yields zero results or the
search call raises, the raise being caught locally. -/
theorem C7_matchTrack (env : Env) (entry : TrackEntry) (r : TrackRecord)
    (a : Artist) (as : List Artist)
    (ht : entry.track = some r) (ha : r.artists = a :: as) :
    search_on_ytmusic env entry =
      (.ok (specTopMatch (env.search (r.name ++ " " ++ a.name))),
       [.search (r.name ++ " " ++ a.name)]) :=
  search_on_ytmusic_present env entry r a as ht ha

/-- C8: ordering is preserved — the queries are issued in source track
order, the appended ids (concatenated batch-by-batch in call order) form a
prefix of the matched ids in source order, and when the source list ends in
a present-record entry the appended ids are exactly the matched ids in
source order. -/
theorem C8_order (env : Env) (p : Playlist) (r : MigResult)
    (h : (migrate_playlist env p).2 = .ok r) (hy : r.ytId.isSome = true) :
    searchQueries (migrate_playlist env p).1
        = expectedQueries (env.tracks p.id) ∧
    (∃ dropped, matchedIds env (env.tracks p.id) =
      (appendBatches (migrate_playlist env p).1).flatten ++ dropped) ∧
    (lastPresent (env.tracks p.id) →
      (appendBatches (migrate_playlist env p).1).flatten
        = matchedIds env (env.tracks p.id)) := by
  rcases migrate_playlist_ok_inv env p r h with ⟨hr, _⟩ | ⟨y, nf, hc, hstep, hr⟩
  · subst hr
    simp at hy
  · have hno := noAbort_of_ok env y (env.tracks p.id).length (env.tracks p.id)
      0 [] 0 nf hstep
    obtain ⟨h1, h2, lo, h3, h4, h5⟩ := processTracks_spec env y
      (env.tracks p.id).length (env.tracks p.id) 0 [] 0 hno (by simp) (by simp)
    simp only [List.nil_append] at h3
    rw [migrate_playlist_eq_some env p y hc]
    refine ⟨?_, ⟨lo, ?_⟩, ?_⟩
    · rw [searchQueries_cons_fetch, searchQueries_cons_create]
      exact h2
    · rw [appendBatches_cons_fetch, appendBatches_cons_create]
      exact h3.symm
    · intro hl
      have hlo := h5 hl
      subst hlo
      rw [List.append_nil] at h3
      rw [appendBatches_cons_fetch, appendBatches_cons_create]
      exact h3

/-- C9: the destination description is `"Migrated from Spotify"` when the
source description is absent or empty, and `"Migrated from Spotify: "`
followed by the source description when it is present and non-empty. -/
theorem C9_description (p : Playlist) :
    ((p.description = none ∨ p.description = some "") →
      destDescription p = "Migrated from Spotify") ∧
    (∀ s, p.description = some s → s ≠ "" →
      destDescription p = "Migrated from Spotify: " ++ s) := by
  constructor
  · rintro (h | h) <;> simp [destDescription, h]
  · intro s hs hne
    have hsplit : ("Migrated from Spotify" : String) ++ (": " ++ s)
        = "Migrated from Spotify: " ++ s := by
      apply String.ext
      simp only [String.data_append]
      rw [← List.append_assoc]
      rfl
    simp [destDescription, hs, hne, hsplit]

/-- C10: a present-record track with an EMPTY artist list makes the query
construction raise an uncaught `IndexError` before the search call is issued
(no search event, result is the error, not a caught non-match), and a
playlist containing such a track has its whole migration abort with that
error instead of reporting a result. -/
theorem C10_empty_artists (env : Env) (p : Playlist) (y : String)
    (entry : TrackEntry) (r : TrackRecord)
    (ht : entry.track = some r) (ha : r.artists = [])
    (hmem : entry ∈ env.tracks p.id)
    (hc : env.create p.name (destDescription p) "PRIVATE" = some y) :
    search_on_ytmusic env entry = (.error .indexError, []) ∧
    (migrate_playlist env p).2 = .error .indexError := by
  refine ⟨search_on_ytmusic_noArtists env entry r ht ha, ?_⟩
  have habort := processTracks_abort env y (env.tracks p.id).length
    (env.tracks p.id) 0 [] 0 ⟨entry, hmem, r, ht, ha⟩
  rw [migrate_playlist_eq_some env p y hc]
  simp [habort]

/-! ### Witnesses -/

/-- A playlist and environment where creation fails and search raises. -/
def pC4 : Playlist := ⟨"Empty", "sp4", some "desc"⟩

def envC4 : Env where
  tracks := fun _ => []
  create := fun _ _ _ => none
  search := fun _ => .error "down"
  append := fun _ _ => none

/-- A playlist with one present, matching track (batch of one flushed at the
end of the list). -/
def pC5 : Playlist := ⟨"One", "sp5", none⟩

def envC5 : Env where
  tracks := fun _ => [⟨some ⟨"C", [⟨"Z"⟩]⟩⟩]
  create := fun _ _ _ => some "yt5"
  search := fun _ => .ok [⟨"v5"⟩]
  append := fun _ _ => some true

/-- A playlist whose only track has a present record but no artists. -/
def pC10 : Playlist := ⟨"Bad", "sp10", none⟩

def envC10 : Env where
  tracks := fun _ => [⟨some ⟨"NoArtists", []⟩⟩]
  create := fun _ _ _ => some "yt10"
  search := fun _ => .ok [⟨"v"⟩]
  append := fun _ _ => some true

theorem C1_amended_witness :
    (⟨some "yt1", 1, 1⟩ : MigResult).total = (envC1.tracks pC1.id).length ∧
    (⟨some "yt1", 1, 1⟩ : MigResult).found
      = (envC1.tracks pC1.id).length - unmatchedCount envC1 (envC1.tracks pC1.id) :=
  C1_amended envC1 pC1 ⟨some "yt1", 1, 1⟩ rfl rfl

theorem C3_amended_witness :
    (migrate_playlist envC3 pC3).1 =
      [.fetchTracks pC3.id, .create pC3.name (destDescription pC3) "PRIVATE"] ∧
    searchQueries (migrate_playlist envC3 pC3).1 = [] ∧
    appendBatches (migrate_playlist envC3 pC3).1 = [] ∧
    (migrate_playlist envC3 pC3).2 = .ok ⟨none, 0, 0⟩ :=
  (C3_amended envC3 pC3).2 rfl

theorem C4_create_failure_witness :
    searchQueries (migrate_playlist envC4 pC4).1 = [] ∧
    appendBatches (migrate_playlist envC4 pC4).1 = [] ∧
    (migrate_playlist envC4 pC4).2 = .ok ⟨none, 0, 0⟩ :=
  C4_create_failure envC4 pC4 rfl

theorem C5_batch_sizes_witness :
    appendBatches (migrate_playlist envC5 pC5).1 = [["v5"]] ∧
    (∀ b ∈ appendBatches (migrate_playlist envC5 pC5).1,
      b.length ≤ 50 ∧ b ≠ []) ∧
    (∀ j, j + 1 < (appendBatches (migrate_playlist envC5 pC5).1).length →
      ((appendBatches (migrate_playlist envC5 pC5).1).getD j []).length = 50) :=
  ⟨rfl, (C5_batch_sizes envC5 pC5).1, (C5_batch_sizes envC5 pC5).2⟩

theorem C6_found_le_total_witness :
    (⟨some "yt5", 1, 1⟩ : MigResult).found ≤ (⟨some "yt5", 1, 1⟩ : MigResult).total :=
  C6_found_le_total envC5 pC5 ⟨some "yt5", 1, 1⟩ rfl

theorem C7_matchTrack_witness :
    search_on_ytmusic envC4 ⟨some ⟨"Song", [⟨"Artist"⟩, ⟨"Other"⟩]⟩⟩ =
      (.ok none, [.search "Song Artist"]) :=
  C7_matchTrack envC4 ⟨some ⟨"Song", [⟨"Artist"⟩, ⟨"Other"⟩]⟩⟩
    ⟨"Song", [⟨"Artist"⟩, ⟨"Other"⟩]⟩ ⟨"Artist"⟩ [⟨"Other"⟩] rfl rfl

theorem C8_order_witness :
    searchQueries (migrate_playlist envC5 pC5).1
        = expectedQueries (envC5.tracks pC5.id) ∧
    (∃ dropped, matchedIds envC5 (envC5.tracks pC5.id) =
      (appendBatches (migrate_playlist envC5 pC5).1).flatten ++ dropped) ∧
    (lastPresent (envC5.tracks pC5.id) →
      (appendBatches (migrate_playlist envC5 pC5).1).flatten
        = matchedIds envC5 (envC5.tracks pC5.id)) :=
  C8_order envC5 pC5 ⟨some "yt5", 1, 1⟩ rfl rfl

theorem C9_description_witness :
    destDescription ⟨"P", "sp", some "chill vibes"⟩
        = "Migrated from Spotify: chill vibes" ∧
    destDescription ⟨"Q", "sp", none⟩ = "Migrated from Spotify" :=
  ⟨(C9_description ⟨"P", "sp", some "chill vibes"⟩).2 "chill vibes" rfl (by decide),
   (C9_description ⟨"Q", "sp", none⟩).1 (Or.inl rfl)⟩

theorem C10_empty_artists_witness :
    search_on_ytmusic envC10 ⟨some ⟨"NoArtists", []⟩⟩ = (.error .indexError, []) ∧
    (migrate_playlist envC10 pC10).2 = .error .indexError :=
  C10_empty_artists envC10 pC10 "yt10" ⟨some ⟨"NoArtists", []⟩⟩
    ⟨"NoArtists", []⟩ rfl rfl (by decide) rfl

end SpotifyMigrator
